import Mathlib

/-!
# Cloudy-Server file-lifecycle engine: a shallow embedding

This file embeds the file-lifecycle engine of the Cloudy-Server backend
(`FileService`, `FileRepository`, `StorageHelper`, `UserRepository`) as pure
Lean functions over an explicit system state, and proves or refutes the
frozen claims about it.

Modelling conventions:
* the metadata store (relational `files` table) is a `List FileRecord` in
  creation order (inserts append at the end, matching `orderBy createdAt`);
* the blob store is the `List String` of keys currently present (object
  contents are irrelevant to every claim);
* the cache is advisory; cache traffic is recorded as an append-only list of
  `CacheEvent`s so that invalidation claims can be stated;
* JavaScript string primitives (`substring`, `startsWith`, `lastIndexOf`,
  `replace(/^\/+/,'')`, …) are modelled as `js*` helpers over the character
  list of a `String`, keeping every definition kernel-executable;
* JavaScript exceptions that are caught-and-logged by the source are
  modelled as a `none`/unchanged-state outcome at the catch point; exceptions
  that propagate to the caller likewise end the operation at the throw point.
-/

namespace Cloudy

/-! ## JavaScript string primitives -/

/-- JS `s.startsWith(pre)`. -/
def jsStartsWith (s pre : String) : Bool := pre.data.isPrefixOf s.data

/-- JS `s.endsWith(suf)`. -/
def jsEndsWith (s suf : String) : Bool := suf.data.isSuffixOf s.data

/-- JS `s.substring(n)` (characters from index `n` to the end). -/
def jsDropChars (s : String) (n : Nat) : String := ⟨s.data.drop n⟩

/-- JS `s.substring(0, n)` (the first `n` characters). -/
def jsTakeChars (s : String) (n : Nat) : String := ⟨s.data.take n⟩

/-- JS `s.length`. -/
def jsLen (s : String) : Nat := s.data.length

/-- JS `s.includes(c)` for a single character. -/
def jsContainsChar (s : String) (c : Char) : Bool := s.data.contains c

/-- JS `s.lastIndexOf(c)` as an `Option Nat` (`none` for `-1`). -/
def jsLastIndexOf (s : String) (c : Char) : Option Nat :=
  match s.data.reverse.findIdx? (· == c) with
  | some j => some (s.data.length - 1 - j)
  | none => none

/-! ## Data model -/

inductive FileLocation where
  | Drive
  | Bin
deriving DecidableEq, Repr

/-- The string interpolation of a `FileLocation` (template literals in the
source interpolate the enum value as `"Drive"` / `"Bin"`). -/
def FileLocation.str : FileLocation → String
  | .Drive => "Drive"
  | .Bin => "Bin"

inductive AuthProvider where
  | localUser
  | google
deriving DecidableEq, Repr

/-- A row of the `files` table (fields not consulted by any claim —
`objectType`, the metadata bag, timestamps — are omitted). -/
structure FileRecord where
  id : String
  ownerId : String
  objectName : String
  objectPath : String
  mimeType : String
  size : Nat
  isFolder : Bool
  isDeleted : Bool
  location : FileLocation
deriving DecidableEq, Repr

/-- A row of the `users` table (the fields the file engine consults). -/
structure User where
  id : String
  authProvider : AuthProvider
  storageUsed : Nat
  storageLimit : Nat
deriving DecidableEq, Repr

inductive CacheEvent where
  | deleteKey (key : String)
  | invalidateOwner (ownerId : String) (location : String)
deriving DecidableEq, Repr

/-- The three stores plus the id generator and the cache-traffic log. -/
structure SysState where
  blobs : List String
  db : List FileRecord
  users : List User
  nextId : Nat
  events : List CacheEvent
deriving DecidableEq, Repr

def pushEvent (s : SysState) (e : CacheEvent) : SysState :=
  { s with events := s.events ++ [e] }

/-- Fresh ids stand in for the generated uuids. -/
def mkId (n : Nat) : String := "file-" ++ toString n

/-! ## Path manipulation helpers -/

/-- JS `p.startsWith('/') ? p.substring(1) : p` (drops exactly one char). -/
def stripLead (p : String) : String :=
  if jsStartsWith p "/" then jsDropChars p 1 else p

/-- JS `p.replace(/^\/+/, '')` (drops every leading slash). -/
def stripLeadAll (p : String) : String :=
  ⟨p.data.dropWhile (· == '/')⟩

/-- JS `path.startsWith('/') ? path : '/' + path` used by the repository
queries. -/
def normLeadSlash (p : String) : String :=
  if jsStartsWith p "/" then p else "/" ++ p

/-! ## Path Resolver

The blob key built by `FileService.restoreFile` (lines 1128–1134) for a
record's `(location, objectPath, objectName)`; `FileService.uploadFile`
(lines 570–580) builds the same shape with `location = Drive`. No separator
is inserted between the stripped path and the name. -/

def resolveKey (basePath : String) (loc : FileLocation)
    (objectPath objectName : String) : String :=
  if objectPath == "/" then
    basePath ++ loc.str ++ "/" ++ objectName
  else
    basePath ++ loc.str ++ "/" ++ stripLead objectPath ++ objectName

/-! ## String lemmas used to analyse key equality -/

theorem string_eq_iff_data {a b : String} : a = b ↔ a.data = b.data := by
  constructor
  · intro h; rw [h]
  · intro h; cases a; cases b; simp_all

theorem string_data_append (a b : String) : (a ++ b).data = a.data ++ b.data := by
  cases a; cases b; rfl

theorem string_append_assoc (a b c : String) : a ++ b ++ c = a ++ (b ++ c) := by
  rw [string_eq_iff_data]
  simp [string_data_append]

theorem string_append_cancel_left {a b c : String} (h : a ++ b = a ++ c) : b = c := by
  rw [string_eq_iff_data] at h ⊢
  rw [string_data_append, string_data_append] at h
  exact List.append_cancel_left h

theorem string_empty_append (a : String) : "" ++ a = a := by
  rw [string_eq_iff_data, string_data_append]
  rfl

/-- `resolveKey` in its uniform form: the `objectPath = "/"` branch coincides
with stripping, because `stripLead "/" = ""`. -/
theorem resolveKey_eq (basePath : String) (loc : FileLocation)
    (p n : String) :
    resolveKey basePath loc p n =
      basePath ++ (loc.str ++ ("/" ++ (stripLead p ++ n))) := by
  unfold resolveKey
  split
  · next h =>
    have hp : p = "/" := by
      simpa using h
    subst hp
    have hs : stripLead "/" = "" := by decide
    rw [hs, string_empty_append, string_append_assoc, string_append_assoc]
  · rw [string_append_assoc, string_append_assoc, string_append_assoc]

example : resolveKey "Local Users/u1/" .Drive "/a" "bc" = "Local Users/u1/Drive/abc" := by decide
example : stripLead "/ab" = "ab" := by decide
example : stripLeadAll "//ab" = "ab" := by decide

/-! ## FileRepository (src/repositories/fileRepository.ts) -/

/-- `FileRepository.findByNameAndPath`: first non-deleted record matching
owner, name, leading-slash-normalized path and location (`limit(1)`). -/
def findByNameAndPath (db : List FileRecord) (ownerId fileName path : String)
    (loc : FileLocation) : Option FileRecord :=
  (db.filter fun f =>
    f.ownerId == ownerId && f.objectName == fileName &&
    f.objectPath == normLeadSlash path && f.location == loc &&
    f.isDeleted == false).head?

/-- `FileRepository.findByPath`: all non-deleted records of the owner at the
leading-slash-normalized path and location, in creation order. -/
def findByPath (db : List FileRecord) (ownerId path : String)
    (loc : FileLocation) : List FileRecord :=
  db.filter fun f =>
    f.ownerId == ownerId && f.objectPath == normLeadSlash path &&
    f.location == loc && f.isDeleted == false

/-- `FileRepository.findById`. -/
def findById (db : List FileRecord) (id : String) : Option FileRecord :=
  db.find? fun f => f.id == id

/-- `FileRepository.createFile`: insert the record (`isDeleted` defaults to
`false`); the new row is appended, matching creation order. -/
def createFile (db : List FileRecord) (r : FileRecord) : List FileRecord :=
  db ++ [r]

/-- `FileRepository.updateFile`: update the record with the given id and
return it (`returning()` yields `none` when no row matched). -/
def updateFile (db : List FileRecord) (id : String)
    (g : FileRecord → FileRecord) : Option FileRecord × List FileRecord :=
  match db.find? (fun f => f.id == id) with
  | none => (none, db)
  | some f => (some (g f), db.map fun x => if x.id == id then g x else x)

/-- `FileRepository.deleteFile`: delete the record with the given id. -/
def deleteFileRec (db : List FileRecord) (id : String) : List FileRecord :=
  db.filter fun f => !(f.id == id)

/-- The id of the root Bin folder used by `FileRepository.deleteAllFiles`
(`limit(1)` lookup), falling back to the dummy uuid when absent. -/
def rootBinId (db : List FileRecord) (ownerId : String) : String :=
  match (db.filter fun f =>
      f.ownerId == ownerId && f.location == FileLocation.Bin &&
      f.objectPath == "/" && f.isFolder).head? with
  | some f => f.id
  | none => "00000000-0000-0000-0000-000000000000"

/-- `FileRepository.deleteAllFiles`: delete every Bin record of the owner
except the root Bin folder. -/
def deleteAllFiles (db : List FileRecord) (ownerId : String) : List FileRecord :=
  db.filter fun f =>
    !(f.ownerId == ownerId && f.location == FileLocation.Bin &&
      !(f.id == rootBinId db ownerId))

/-- `FileRepository.calculateStorageUsed`: sum of `size` over the owner's
non-deleted records whose location is Drive or Bin. -/
def calculateStorageUsed (db : List FileRecord) (ownerId : String) : Nat :=
  ((db.filter fun f =>
    f.ownerId == ownerId && f.isDeleted == false &&
    (f.location == FileLocation.Drive || f.location == FileLocation.Bin)).map
      (fun f => f.size)).foldl (· + ·) 0

/-! ## UserRepository and storage base path -/

/-- `UserRepository.findById`. -/
def userFindById (users : List User) (id : String) : Option User :=
  users.find? fun u => u.id == id

/-- `UserRepository.updateStorageUsed`. -/
def updateStorageUsed (users : List User) (id : String) (bytes : Nat) : List User :=
  users.map fun u => if u.id == id then { u with storageUsed := bytes } else u

/-- `FileService.getUserStorageBasePath` (lines 1563–1581): derive the base
prefix from the user's auth provider; when the lookup finds no user the
thrown error is caught and the Local Users prefix is returned. -/
def getUserStorageBasePath (users : List User) (userId : String) : String :=
  match userFindById users userId with
  | none => "Local Users/" ++ userId ++ "/"
  | some u =>
    (if u.authProvider == AuthProvider.google then "Google Users" else "Local Users")
      ++ "/" ++ userId ++ "/"

/-- `FileService.updateUserStorageUsage`: recompute from the files table and
persist into the user row. -/
def updateUserStorageUsage (s : SysState) (userId : String) : SysState :=
  { s with users := updateStorageUsed s.users userId (calculateStorageUsed s.db userId) }

/-! ## StorageHelper (MinIO wrapper, blob store as a key set) -/

/-- Add a key to the blob store. -/
def insertKey (k : String) (bs : List String) : List String :=
  if bs.contains k then bs else k :: bs

/-- `StorageHelper.fileExists` (statObject). -/
def shFileExists (bs : List String) (k : String) : Bool := bs.contains k

/-- `StorageHelper.uploadFile` (putObject). -/
def shUploadFile (bs : List String) (k : String) : List String := insertKey k bs

/-- `StorageHelper.createFolder` (zero-byte marker object). -/
def shCreateFolder (bs : List String) (k : String) : List String := insertKey k bs

/-- `StorageHelper.deleteFile`: returns whether the object existed and the
store afterwards. -/
def shDeleteFile (bs : List String) (k : String) : Bool × List String :=
  if bs.contains k then (true, bs.erase k) else (false, bs)

/-- `StorageHelper.moveFile`: `false` without change when the source is
missing; otherwise copy then delete the source. -/
def shMoveFile (bs : List String) (src dst : String) : Bool × List String :=
  if bs.contains src then (true, insertKey dst (bs.erase src)) else (false, bs)

/-- `StorageHelper.renameFile` (copy + delete, all failures swallowed):
no-op when the source is missing. -/
def shRenameFile (bs : List String) (src dst : String) : List String :=
  if bs.contains src then insertKey dst (bs.erase src) else bs

/-- `StorageHelper.duplicateFile` (copyObject): `none` models the
`StorageError` thrown when the copy fails (source missing). -/
def shDuplicateFile (bs : List String) (src dst : String) : Option (List String) :=
  if bs.contains src then some (insertKey dst bs) else none

/-! ## Per-operation blob-key builders (each `FileService` method builds its
storage path inline; the formulas differ between methods) -/

/-- `FileLocation.toLowerCase()` as used for cache invalidation. -/
def FileLocation.lower : FileLocation → String
  | .Drive => "drive"
  | .Bin => "bin"

/-- `uploadFile` (lines 573–580): `substring(1)` stripping, no separator
before the name. -/
def uploadStoragePath (base normalizedPath name : String) : String :=
  if normalizedPath == "/" then base ++ "Drive/" ++ name
  else base ++ "Drive/" ++ stripLead normalizedPath ++ name

/-- `downloadFile` (749–751), `duplicateFile` (968–974) and `getFileUrl`
(1516–1518): `replace(/^\/+/,'')` stripping with a `/` separator (the inner
root test is redundant but kept from the source). -/
def slashKey (base : String) (loc : FileLocation) (path name : String) : String :=
  if path == "/" then base ++ loc.str ++ "/" ++ name
  else base ++ loc.str ++ "/" ++ (if path == "/" then "" else stripLeadAll path)
       ++ "/" ++ name

/-- `moveToBin` (1031–1037): `substring(1)` stripping with a separator only
when the path does not already end in `/`. -/
def moveBinKey (base locName path name : String) : String :=
  if path == "/" then base ++ locName ++ "/" ++ name
  else base ++ locName ++ "/" ++ stripLead path
       ++ (if jsEndsWith path "/" then "" else "/") ++ name

/-- `renameFile` (828–835): `substring(1)` stripping with an unconditional
`/` separator. -/
def renameKey (base : String) (loc : FileLocation) (path name : String) : String :=
  if path == "/" then base ++ loc.str ++ "/" ++ name
  else base ++ loc.str ++ "/" ++ stripLead path ++ "/" ++ name

/-- `deleteFileForever` (1222–1224): Bin prefix, conditional separator,
trailing slash for folders. -/
def deleteForeverKey (base path name : String) (isFolder : Bool) : String :=
  if path == "/" then
    base ++ "Bin/" ++ name ++ (if isFolder then "/" else "")
  else
    base ++ "Bin/" ++ stripLead path
      ++ (if jsEndsWith path "/" then "" else "/") ++ name
      ++ (if isFolder then "/" else "")

/-- `emptyBin` (1271–1277): Bin prefix with separator only for a nonempty
stripped path lacking a trailing slash. -/
def emptyBinKey (base path name : String) : String :=
  if path == "/" then base ++ "Bin/" ++ name
  else
    base ++ "Bin/" ++ stripLead path
      ++ (if !(stripLead path == "") && !jsEndsWith (stripLead path) "/" then "/" else "")
      ++ name

/-! ## FileService operations -/

/-- `FileService.uploadFile` (lines 543–647). Source ordering preserved:
name-conflict check, then the blob write, then the 25 MB cap and the 5 GB
quota check, then the metadata insert, quota resync and cache invalidation.
A `none` result is the "declined" `return null`. -/
def uploadFile (s : SysState) (ownerId name mimeType : String) (size : Nat)
    (path : String) : Option FileRecord × SysState :=
  let p1 := if jsStartsWith path "/" then path else "/" ++ path
  let normalizedPath := if p1 == "" then "/" else p1
  match findByNameAndPath s.db ownerId name normalizedPath .Drive with
  | some _ => (none, s)
  | none =>
    let base := getUserStorageBasePath s.users ownerId
    let storagePath := uploadStoragePath base normalizedPath name
    let s1 := { s with blobs := shUploadFile s.blobs storagePath }
    if size > 25 * 1024 * 1024 then (none, s1)
    else if calculateStorageUsed s1.db ownerId + size > 5 * 1024 * 1024 * 1024 then
      (none, s1)
    else
      let r : FileRecord :=
        { id := mkId s1.nextId, ownerId := ownerId, objectName := name,
          objectPath := normalizedPath, mimeType := mimeType, size := size,
          isFolder := false, isDeleted := false, location := .Drive }
      let s2 := { s1 with db := createFile s1.db r, nextId := s1.nextId + 1 }
      let s3 := updateUserStorageUsage s2 ownerId
      (some r, pushEvent s3 (.invalidateOwner ownerId "drive"))

/-- `FileService.moveToBin` (lines 1004–1093). The already-in-Bin case is an
early no-op return; for non-folders the blob move (with destination
overwrite and Bin-marker creation) happens before the Bin name-collision
check; a collision throws, the outer catch logs and yields `undefined`. -/
def moveToBinBlobPhase (s : SysState) (base : String) (file : FileRecord) : SysState :=
  if !file.isFolder then
    let src := moveBinKey base "Drive" file.objectPath file.objectName
    let dst := moveBinKey base "Bin" file.objectPath file.objectName
    let sA := if shFileExists s.blobs dst then
        { s with blobs := (shDeleteFile s.blobs dst).2 } else s
    let binFolder := base ++ "Bin/"
    let sB := if !shFileExists sA.blobs binFolder then
        { sA with blobs := shCreateFolder sA.blobs binFolder } else sA
    { sB with blobs := (shMoveFile sB.blobs src dst).2 }
  else s

def moveToBin (s : SysState) (fid : String) : Option FileRecord × SysState :=
  let s0 := pushEvent s (.deleteKey ("file:" ++ fid))
  match findById s0.db fid with
  | none => (none, s0)
  | some file =>
    if file.location == FileLocation.Bin then (some file, s0)
    else
      let base := getUserStorageBasePath s0.users file.ownerId
      let s1 := moveToBinBlobPhase s0 base file
      match findByNameAndPath s1.db file.ownerId file.objectName file.objectPath .Bin with
      | some _ => (none, s1)
      | none =>
        match updateFile s1.db fid (fun f => { f with location := .Bin }) with
        | (none, db2) => (none, { s1 with db := db2 })
        | (some uf, db2) =>
          let s2 := pushEvent { s1 with db := db2 }
            (.invalidateOwner file.ownerId "drive")
          let s3 := pushEvent s2 (.invalidateOwner file.ownerId "bin")
          (some uf, pushEvent s3 (.deleteKey ("file:" ++ fid)))

/-- Extension preservation in `renameFile` (lines 791–806). -/
def renameExtAdjust (file : FileRecord) (newName0 : String) : String :=
  if !file.isFolder && jsContainsChar file.objectName '.'
      && !jsStartsWith file.objectName "." then
    match jsLastIndexOf file.objectName '.' with
    | none => newName0
    | some i =>
      let ext := jsDropChars file.objectName i
      if !jsEndsWith newName0 ext then
        if !jsContainsChar newName0 '.'
            || intLastIndexOf newName0 '.' ≤ intLastIndexOf newName0 '/' then
          newName0 ++ ext
        else newName0
      else newName0
  else newName0
where
  intLastIndexOf (s : String) (c : Char) : Int :=
    match jsLastIndexOf s c with
    | some i => (i : Int)
    | none => -1

/-- `FileService.renameFile` (lines 773–879). A name conflict throws (and
propagates). The blob rename and the metadata update both live inside the
`if (!file.isFolder)` block, so a folder rename falls off the end of the
function with no metadata update and no cache invalidation. -/
def renameFile (s : SysState) (fid newName0 : String) : Option FileRecord × SysState :=
  let s0 := pushEvent s (.deleteKey ("file:" ++ fid))
  match findById s0.db fid with
  | none => (none, s0)
  | some file =>
    if file.objectName == newName0 then (some file, s0)
    else
      let newName := renameExtAdjust file newName0
      match findByNameAndPath s0.db file.ownerId newName file.objectPath file.location with
      | some _ => (none, s0)
      | none =>
        let base := getUserStorageBasePath s0.users file.ownerId
        if !file.isFolder then
          let src := renameKey base file.location file.objectPath file.objectName
          let dst := renameKey base file.location file.objectPath newName
          let s1 := if shFileExists s0.blobs src then
              { s0 with blobs := shRenameFile s0.blobs src dst } else s0
          match updateFile s1.db fid (fun f => { f with objectName := newName }) with
          | (none, db2) =>
            (none, pushEvent { s1 with db := db2 }
              (.invalidateOwner file.ownerId file.location.lower))
          | (some uf, db2) =>
            let s2 := pushEvent { s1 with db := db2 }
              (.invalidateOwner file.ownerId file.location.lower)
            match findById s2.db fid with
            | none => (some uf, s2)
            | some refreshed => (some refreshed, s2)
        else
          (none, s0)

/-- JS `parseInt` on an all-digit string. -/
def parseDigits (l : List Char) : Nat :=
  l.foldl (fun n c => n * 10 + (c.toNat - 48)) 0

/-- The regex `^«base»\s*\((\d+)\)$` of `duplicateFile` (lines 917–929):
the captured number, or `0` when the string does not match. -/
def suffixNum (base s : String) : Nat :=
  if jsStartsWith s base then
    match (jsDropChars s (jsLen base)).data.dropWhile (·.isWhitespace) with
    | '(' :: tail =>
      if tail.length ≥ 2 && tail.getLast? == some ')' then
        let digits := tail.dropLast
        if digits.all (·.isDigit) then parseDigits digits else 0
      else 0
    | _ => 0
  else 0

/-- JS `s.substring(0, s.lastIndexOf('.'))` (empty when there is no dot,
since `substring(0, -1) = ""`). -/
def jsSubstrBeforeLastDot (s : String) : String :=
  match jsLastIndexOf s '.' with
  | some i => jsTakeChars s i
  | none => ""

/-- The extension split of `duplicateFile` (lines 898–911). -/
def dupHasExtSplit (file : FileRecord) : Bool × String × String :=
  match jsLastIndexOf file.objectName '.' with
  | some i =>
    if 0 < i && i < jsLen file.objectName - 1 && !file.isFolder then
      (true, jsTakeChars file.objectName i, jsDropChars file.objectName i)
    else (false, file.objectName, "")
  | none => (false, file.objectName, "")

/-- The name generated for a duplicate (lines 898–937): next `"name (n)"`
with `n = max existing suffix + 1`, or `1` when none matches. -/
def duplicateName (db : List FileRecord) (file : FileRecord) : String :=
  let split := dupHasExtSplit file
  let hasExt := split.1
  let baseName := split.2.1
  let extension := split.2.2
  let existingFiles := findByPath db file.ownerId file.objectPath file.location
  let copyNumbers := (existingFiles.map fun f =>
      if hasExt then suffixNum baseName (jsSubstrBeforeLastDot f.objectName)
      else suffixNum baseName f.objectName).filter (fun n => n > 0)
  let copyNumber := if copyNumbers.length > 0 then copyNumbers.foldl max 0 + 1 else 1
  baseName ++ " (" ++ toString copyNumber ++ ")" ++ extension

/-- `FileService.duplicateFile` (lines 884–999): generate the name, insert
the metadata record, then (non-folders) copy the blob; when the copy throws
the new metadata record is deleted again (rollback); quota resync last. -/
def duplicateFile (s : SysState) (fid : String) : Option FileRecord × SysState :=
  let s0 := pushEvent s (.deleteKey ("file:" ++ fid))
  match findById s0.db fid with
  | none => (none, s0)
  | some file =>
    let newName := duplicateName s0.db file
    let r : FileRecord :=
      { id := mkId s0.nextId, ownerId := file.ownerId, objectName := newName,
        objectPath := file.objectPath, mimeType := file.mimeType,
        size := file.size, isFolder := file.isFolder, isDeleted := false,
        location := file.location }
    let s1 := { s0 with db := createFile s0.db r, nextId := s0.nextId + 1 }
    let s2 :=
      if !file.isFolder then
        let base := getUserStorageBasePath s1.users file.ownerId
        let src := slashKey base file.location file.objectPath file.objectName
        let dst := slashKey base r.location r.objectPath r.objectName
        match shDuplicateFile s1.blobs src dst with
        | some bs =>
          pushEvent { s1 with blobs := bs }
            (.invalidateOwner file.ownerId
              (if file.location == FileLocation.Drive then "drive" else "bin"))
        | none => { s1 with db := deleteFileRec s1.db r.id }
      else s1
    (some r, updateUserStorageUsage s2 file.ownerId)

/-- `FileService.downloadFile` (lines 726–768): ownership mismatch throws
`Access denied` before any storage access; the result carries the record
and the storage key that is streamed. -/
def downloadFile (s : SysState) (fid userId : String) :
    Except String (FileRecord × String) × SysState :=
  let s0 := pushEvent s (.deleteKey ("file:" ++ fid))
  match findById s0.db fid with
  | none => (.error "File not found", s0)
  | some file =>
    if !(file.ownerId == userId) then (.error "Access denied", s0)
    else
      let base := getUserStorageBasePath s0.users file.ownerId
      let key := slashKey base file.location file.objectPath file.objectName
      if shFileExists s0.blobs key then (.ok (file, key), s0)
      else (.error "Failed to download file", s0)

/-- `FileService.getFileUrl` (lines 1492–1532): an ownership mismatch only
logs a warning (line 1507) and the presigned URL is produced anyway. -/
def getFileUrl (s : SysState) (fid _userId : String) : Option String × SysState :=
  let s0 := pushEvent s (.deleteKey ("file:" ++ fid))
  match findById s0.db fid with
  | none => (none, s0)
  | some file =>
    let base := getUserStorageBasePath s0.users file.ownerId
    let key := slashKey base file.location file.objectPath file.objectName
    (some ("presigned:" ++ key), s0)

/-- Whether `needle` occurs as a contiguous run inside the list. -/
def infixOfAux (needle : List Char) : List Char → Bool
  | [] => needle.isEmpty
  | c :: rest => needle.isPrefixOf (c :: rest) || infixOfAux needle rest

/-- JS `s.includes(sub)`. -/
def jsIncludes (s sub : String) : Bool := infixOfAux sub.data s.data

structure PreviewResult where
  ptype : String
  url : Option String
  name : String
  size : Nat
  content : Option String
deriving DecidableEq, Repr

/-- The mime dispatch of `previewFile` (lines 677–704). -/
def previewTypeOf (mime : String) : String :=
  if jsStartsWith mime "image/" then "image"
  else if jsStartsWith mime "text/" || jsIncludes mime "json"
      || jsIncludes mime "javascript" || jsIncludes mime "xml" then "text"
  else if mime == "application/pdf" then "pdf"
  else if jsStartsWith mime "audio/" then "audio"
  else if jsStartsWith mime "video/" then "video"
  else "other"

/-- `FileService.previewFile` (lines 652–721): an ownership mismatch only
logs a warning (lines 667–669); media types still obtain a URL via
`getFileUrl`, text types go through `downloadFile` (whose `Access denied`
throw is caught and swallowed, yielding `undefined`). -/
def previewFile (s : SysState) (fid userId : String) :
    Option PreviewResult × SysState :=
  let s0 := pushEvent s (.deleteKey ("file:" ++ fid))
  match findById s0.db fid with
  | none => (none, s0)
  | some file =>
    let pt := previewTypeOf file.mimeType
    if pt == "text" then
      match downloadFile s0 fid userId with
      | (.error _, s1) => (none, s1)
      | (.ok (_, key), s1) =>
        (some { ptype := pt, url := none, name := file.objectName,
                size := file.size, content := some key }, s1)
    else if pt == "image" || pt == "pdf" || pt == "audio" || pt == "video" then
      match getFileUrl s0 fid userId with
      | (none, s1) => (none, s1)
      | (some u, s1) =>
        (some { ptype := pt, url := some u, name := file.objectName,
                size := file.size, content := none }, s1)
    else
      (some { ptype := pt, url := none, name := file.objectName,
              size := file.size, content := none }, s0)

/-- `FileService.deleteFileForever` (lines 1193–1249): ownership mismatch
throws (caught and logged — no mutation); non-Bin records are refused; for
Bin records the blob delete is best-effort, then the record is removed, the
bin cache invalidated and usage resynced. -/
def deleteFileForever (s : SysState) (fid userId : String) : SysState :=
  let s0 := pushEvent s (.deleteKey ("file:" ++ fid))
  match findById s0.db fid with
  | none => s0
  | some file =>
    if !(file.ownerId == userId) then s0
    else if !(file.location == FileLocation.Bin) then s0
    else
      let base := getUserStorageBasePath s0.users file.ownerId
      let key := deleteForeverKey base file.objectPath file.objectName file.isFolder
      let s1 := { s0 with blobs := (shDeleteFile s0.blobs key).2 }
      let s2 := { s1 with db := deleteFileRec s1.db fid }
      let s3 := pushEvent s2 (.invalidateOwner file.ownerId "bin")
      updateUserStorageUsage s3 file.ownerId

/-- One iteration of `emptyBin`'s blob-deletion loop: non-folders get a
best-effort blob delete. -/
def emptyBinStep (base : String) (st : SysState) (f : FileRecord) : SysState :=
  if !f.isFolder then
    { st with blobs := (shDeleteFile st.blobs (emptyBinKey base f.objectPath f.objectName)).2 }
  else st

/-- `FileService.emptyBin` (lines 1254–1297): enumerate the owner's Bin
records **at path `/`** (`findByPath(userId, '/', 'Bin')`), best-effort
delete each non-folder's blob, bulk-delete the owner's Bin metadata except
the root marker, invalidate the bin cache and resync usage. -/
def emptyBin (s : SysState) (userId : String) : SysState :=
  let s0 := pushEvent s (.deleteKey "user:undefined")
  let files := findByPath s0.db userId "/" FileLocation.Bin
  let base := getUserStorageBasePath s0.users userId
  let s1 := files.foldl (emptyBinStep base) s0
  let s2 := { s1 with db := deleteAllFiles s1.db userId }
  let s3 := pushEvent s2 (.invalidateOwner userId "bin")
  updateUserStorageUsage s3 userId

/-! ## Shared concrete fixtures used by witnesses and counterexamples -/

def exUser : User :=
  { id := "u1", authProvider := .localUser, storageUsed := 0,
    storageLimit := 5368709120 }

def exGoogleUser : User :=
  { id := "u2", authProvider := .google, storageUsed := 0,
    storageLimit := 5368709120 }

def exRootDrive : FileRecord :=
  { id := "r0", ownerId := "u1", objectName := "", objectPath := "/",
    mimeType := "application/x-directory", size := 0, isFolder := true,
    isDeleted := false, location := .Drive }

def exRootBin : FileRecord :=
  { id := "rb", ownerId := "u1", objectName := "", objectPath := "/",
    mimeType := "application/x-directory", size := 0, isFolder := true,
    isDeleted := false, location := .Bin }

def exReportPdf : FileRecord :=
  { id := "f1", ownerId := "u1", objectName := "report.pdf", objectPath := "/",
    mimeType := "application/pdf", size := 100, isFolder := false,
    isDeleted := false, location := .Drive }

def exDriveTxt : FileRecord :=
  { id := "g1", ownerId := "u1", objectName := "a.txt", objectPath := "/",
    mimeType := "text/plain", size := 5, isFolder := false,
    isDeleted := false, location := .Drive }

def exBinTxt : FileRecord :=
  { id := "b1", ownerId := "u1", objectName := "a.txt", objectPath := "/",
    mimeType := "text/plain", size := 5, isFolder := false,
    isDeleted := false, location := .Bin }

def exFolder : FileRecord :=
  { id := "d1", ownerId := "u1", objectName := "docs", objectPath := "/",
    mimeType := "application/x-directory", size := 0, isFolder := true,
    isDeleted := false, location := .Drive }

def exNestedBin : FileRecord :=
  { id := "n1", ownerId := "u1", objectName := "deep.txt",
    objectPath := "/sub/", mimeType := "text/plain", size := 7,
    isFolder := false, isDeleted := false, location := .Bin }

/-- State with a single `report.pdf` in Drive, blob present. -/
def exStateDup : SysState :=
  { blobs := ["Local Users/u1/Drive/report.pdf"],
    db := [exRootDrive, exRootBin, exReportPdf],
    users := [exUser], nextId := 0, events := [] }

/-- State with `a.txt` both in Drive and Bin (same path). -/
def exStateMove : SysState :=
  { blobs := ["Local Users/u1/Drive/a.txt", "Local Users/u1/Bin/a.txt",
              "Local Users/u1/Bin/"],
    db := [exRootDrive, exRootBin, exDriveTxt, exBinTxt],
    users := [exUser], nextId := 9, events := [] }

/-- State with one folder `docs` in Drive. -/
def exStateFolder : SysState :=
  { blobs := [], db := [exRootDrive, exRootBin, exFolder],
    users := [exUser], nextId := 5, events := [] }

/-- State with a root-level and a nested file in Bin, blobs present. -/
def exStateBin : SysState :=
  { blobs := ["Local Users/u1/Bin/a.txt", "Local Users/u1/Bin/sub/deep.txt"],
    db := [exRootDrive, exRootBin, exBinTxt, exNestedBin],
    users := [exUser], nextId := 3, events := [] }

/-! ## C2 — blob-key determinism and (non-)injectivity -/

theorem drive_data : ("Drive" : String).data = ['D', 'r', 'i', 'v', 'e'] := rfl

theorem bin_data : ("Bin" : String).data = ['B', 'i', 'n'] := rfl

/-- C2 (counterexample). The records `(objectPath := "/a", objectName := "bc")`
and `(objectPath := "/ab", objectName := "c")` differ but resolve to the same
blob key for the same owner and location: no separator is inserted between
the stripped path and the name. -/
theorem C2_resolveKey_counterexample :
    resolveKey "Local Users/u1/" .Drive "/a" "bc"
      = resolveKey "Local Users/u1/" .Drive "/ab" "c"
    ∧ ¬(("/a" : String) = "/ab" ∧ ("bc" : String) = "c") := by
  constructor
  · decide
  · intro h
    exact absurd h.1 (by decide)

/-- C2 (amended): key derivation is deterministic — a pure function of
`(basePath, location, objectPath, objectName)` — and two keys of the same
owner coincide exactly when the locations agree and the concatenations
`stripLead objectPath ++ objectName` agree; distinct `(path, name)` splits
of the same concatenation therefore collide. -/
theorem resolveKey_eq_iff (base : String) (l₁ l₂ : FileLocation)
    (p₁ n₁ p₂ n₂ : String) :
    resolveKey base l₁ p₁ n₁ = resolveKey base l₂ p₂ n₂ ↔
      (l₁ = l₂ ∧ stripLead p₁ ++ n₁ = stripLead p₂ ++ n₂) := by
  rw [resolveKey_eq, resolveKey_eq]
  constructor
  · intro h
    have h₁ := string_append_cancel_left h
    cases l₁ <;> cases l₂ <;> simp only [FileLocation.str] at h₁
    · exact ⟨rfl, string_append_cancel_left (string_append_cancel_left h₁)⟩
    · exfalso
      have hd := congrArg String.data h₁
      simp only [string_data_append, drive_data, bin_data] at hd
      simp at hd
    · exfalso
      have hd := congrArg String.data h₁
      simp only [string_data_append, drive_data, bin_data] at hd
      simp at hd
    · exact ⟨rfl, string_append_cancel_left (string_append_cancel_left h₁)⟩
  · rintro ⟨rfl, hx⟩
    rw [hx]

/-! ## C4 — storage usage accounting -/

/-- Modelled from the spec: the authoritative usage is the sum of `size`
over all of the owner's non-deleted records, counting Drive and Bin alike. -/
def specStorageUsed (db : List FileRecord) (ownerId : String) : Nat :=
  ((db.filter fun f => f.ownerId == ownerId && f.isDeleted == false).map
    (fun f => f.size)).sum

theorem foldl_add_eq_sum (l : List Nat) : ∀ a : Nat, l.foldl (· + ·) a = a + l.sum := by
  induction l with
  | nil => intro a; simp
  | cons x xs ih =>
    intro a
    simp [List.foldl_cons, ih, List.sum_cons]
    omega

/-- C4: `FileRepository.calculateStorageUsed` returns exactly the sum of
`size` over the owner's records with `isDeleted = false`; the location
filter `Drive ∨ Bin` excludes nothing because `location` ranges over exactly
those two values. -/
theorem calculateStorageUsed_eq_spec (db : List FileRecord) (ownerId : String) :
    calculateStorageUsed db ownerId = specStorageUsed db ownerId := by
  unfold calculateStorageUsed specStorageUsed
  have hfilter :
      (fun f : FileRecord => f.ownerId == ownerId && f.isDeleted == false &&
        (f.location == FileLocation.Drive || f.location == FileLocation.Bin))
      = fun f : FileRecord => f.ownerId == ownerId && f.isDeleted == false := by
    funext f
    cases f.location <;> simp
  rw [hfilter, foldl_add_eq_sum]
  exact Nat.zero_add _

/-! ## C1 — upload admission control -/

/-- C1 (counterexample). Uploading a 26 MB file is declined (`null`) and the
metadata store is untouched, but the blob has *already been written*: in
`uploadFile` the `storageHelper.uploadFile` call (line 585) precedes both
the 25 MB check (line 616) and the 5 GB quota check (line 622), so the blob
store does not stay unchanged. -/
theorem C1_upload_counterexample :
    (uploadFile exStateDup "u1" "big.bin" "application/octet-stream"
        (26 * 1024 * 1024) "/").1 = none
    ∧ (uploadFile exStateDup "u1" "big.bin" "application/octet-stream"
        (26 * 1024 * 1024) "/").2.db = exStateDup.db
    ∧ ((uploadFile exStateDup "u1" "big.bin" "application/octet-stream"
        (26 * 1024 * 1024) "/").2.blobs.contains
          "Local Users/u1/Drive/big.bin") = true
    ∧ (exStateDup.blobs.contains "Local Users/u1/Drive/big.bin") = false := by
  refine ⟨by decide, by decide, by decide, by decide⟩

/-- C1 (amended): an upload that exceeds the 25 MB per-file cap or whose
owner's current usage plus the new size exceeds the 5 GB limit is declined
(no record is returned) and the metadata store is left unchanged — but both
capacity checks run only *after* the blob write, so the blob store is not
left unchanged in general. -/
theorem uploadFile_capacity_declines (s : SysState)
    (ownerId name mimeType path : String) (size : Nat)
    (h : size > 25 * 1024 * 1024 ∨
      calculateStorageUsed s.db ownerId + size > 5 * 1024 * 1024 * 1024) :
    (uploadFile s ownerId name mimeType size path).1 = none
    ∧ (uploadFile s ownerId name mimeType size path).2.db = s.db := by
  simp only [uploadFile]
  split
  · exact ⟨rfl, rfl⟩
  · split
    · exact ⟨rfl, rfl⟩
    · split
      · exact ⟨rfl, rfl⟩
      · exfalso
        next hcap hquota =>
        rcases h with h | h
        · exact hcap h
        · exact hquota h

theorem uploadFile_capacity_declines_witness :
    (uploadFile exStateDup "u1" "huge.bin" "application/octet-stream"
        (30 * 1024 * 1024) "/").1 = none
    ∧ (uploadFile exStateDup "u1" "huge.bin" "application/octet-stream"
        (30 * 1024 * 1024) "/").2.db = exStateDup.db :=
  uploadFile_capacity_declines exStateDup "u1" "huge.bin"
    "application/octet-stream" "/" (30 * 1024 * 1024) (Or.inl (by decide))

/-! ## C3 — ownership checks -/

/-- C3 (counterexample). `getFileUrl` called by `"intruder"` on the file
owned by `"u1"` does not reject: the ownership mismatch is only logged
(line 1507) and the presigned URL is returned anyway. -/
theorem C3_getFileUrl_counterexample :
    (findById exStateMove.db "g1").map (fun f => f.ownerId) = some "u1"
    ∧ (getFileUrl exStateMove "g1" "intruder").1
        = some "presigned:Local Users/u1/Drive/a.txt" := by
  refine ⟨by decide, by decide⟩

/-- C3 (amended): on an ownership mismatch, `downloadFile` rejects with
`Access denied` and `deleteFileForever` performs no mutation; but
`getFileUrl` still returns a presigned URL and `previewFile` (here for an
image mime type) still returns a preview carrying that URL — those two only
log a warning. -/
theorem ownership_mismatch_behaviour (s : SysState) (fid userId : String)
    (file : FileRecord)
    (hfind : findById s.db fid = some file)
    (hown : file.ownerId ≠ userId) :
    (downloadFile s fid userId).1 = Except.error "Access denied"
    ∧ (downloadFile s fid userId).2.db = s.db
    ∧ (downloadFile s fid userId).2.blobs = s.blobs
    ∧ (deleteFileForever s fid userId).db = s.db
    ∧ (deleteFileForever s fid userId).blobs = s.blobs
    ∧ (getFileUrl s fid userId).1.isSome = true
    ∧ (jsStartsWith file.mimeType "image/" = true →
        (previewFile s fid userId).1.isSome = true) := by
  have hb : (file.ownerId == userId) = false := by
    simpa using hown
  refine ⟨?_, ?_, ?_, ?_, ?_, ?_, ?_⟩
  · simp only [downloadFile, pushEvent]
    rw [hfind]
    simp [hb]
  · simp only [downloadFile, pushEvent]
    rw [hfind]
    simp [hb]
  · simp only [downloadFile, pushEvent]
    rw [hfind]
    simp [hb]
  · simp only [deleteFileForever, pushEvent]
    rw [hfind]
    simp [hb]
  · simp only [deleteFileForever, pushEvent]
    rw [hfind]
    simp [hb]
  · simp only [getFileUrl, pushEvent]
    rw [hfind]
    simp
  · intro himg
    have hpt : previewTypeOf file.mimeType = "image" := by
      unfold previewTypeOf
      rw [himg]
      simp
    simp [previewFile, pushEvent, getFileUrl, hfind, hpt]

theorem ownership_mismatch_behaviour_witness :
    (downloadFile exStateMove "g1" "intruder").1 = Except.error "Access denied"
    ∧ (downloadFile exStateMove "g1" "intruder").2.db = exStateMove.db
    ∧ (downloadFile exStateMove "g1" "intruder").2.blobs = exStateMove.blobs
    ∧ (deleteFileForever exStateMove "g1" "intruder").db = exStateMove.db
    ∧ (deleteFileForever exStateMove "g1" "intruder").blobs = exStateMove.blobs
    ∧ (getFileUrl exStateMove "g1" "intruder").1.isSome = true
    ∧ (jsStartsWith exDriveTxt.mimeType "image/" = true →
        (previewFile exStateMove "g1" "intruder").1.isSome = true) :=
  ownership_mismatch_behaviour exStateMove "g1" "intruder" exDriveTxt
    (by decide) (by decide)

/-! ## C5 — move-to-Bin preconditions -/

theorem moveToBinBlobPhase_db (s : SysState) (base : String) (file : FileRecord) :
    (moveToBinBlobPhase s base file).db = s.db := by
  simp only [moveToBinBlobPhase]
  split
  · split <;> split <;> rfl
  · rfl

/-- C5 (counterexample). Moving `a.txt` (Drive) to Bin while a same-named
record sits in Bin at the same path is rejected (`undefined`, metadata
unchanged) — but the blob store has already changed by then: the blob move
(line 1057, including the destination overwrite at line 1046) runs before
the collision check (line 1064). -/
theorem C5_moveToBin_counterexample :
    (moveToBin exStateMove "g1").1 = none
    ∧ (moveToBin exStateMove "g1").2.db = exStateMove.db
    ∧ ¬((moveToBin exStateMove "g1").2.blobs = exStateMove.blobs)
    ∧ (findByNameAndPath exStateMove.db "u1" "a.txt" "/" .Bin).isSome = true := by
  refine ⟨by decide, by decide, by decide, by decide⟩

/-- C5 (amended): a record already in Bin makes `moveToBin` a no-op that
returns the record with both stores unchanged; a same-named record in Bin at
the same path makes it reject with the metadata store unchanged — but only
after the blob-store side effects for non-folders (see the
counterexample). -/
theorem moveToBin_noop_and_collision (s : SysState) (fid : String)
    (file : FileRecord)
    (hfind : findById s.db fid = some file) :
    (file.location = FileLocation.Bin →
      (moveToBin s fid).1 = some file
      ∧ (moveToBin s fid).2.db = s.db
      ∧ (moveToBin s fid).2.blobs = s.blobs)
    ∧ (file.location = FileLocation.Drive →
      (findByNameAndPath s.db file.ownerId file.objectName file.objectPath
        FileLocation.Bin).isSome = true →
      (moveToBin s fid).1 = none ∧ (moveToBin s fid).2.db = s.db) := by
  constructor
  · intro hloc
    simp [moveToBin, pushEvent, hfind, hloc]
  · intro hloc hcol
    rcases hopt : findByNameAndPath s.db file.ownerId file.objectName
        file.objectPath FileLocation.Bin with _ | g
    · rw [hopt] at hcol
      simp at hcol
    · have hl : (file.location == FileLocation.Bin) = false := by
        rw [hloc]; rfl
      constructor
      · simp [moveToBin, pushEvent, hfind, hl, moveToBinBlobPhase_db, hopt]
      · simp [moveToBin, pushEvent, hfind, hl, moveToBinBlobPhase_db, hopt]

theorem moveToBin_noop_and_collision_witness :
    (moveToBin exStateMove "g1").1 = none
    ∧ (moveToBin exStateMove "g1").2.db = exStateMove.db :=
  (moveToBin_noop_and_collision exStateMove "g1" exDriveTxt (by decide)).2
    (by decide) (by decide)

/-! ## C6 — rename of a folder -/

/-- C6 (code bug). Renaming the folder `docs` to the fresh name `stuff`
does nothing: in `renameFile` the metadata update (line 850) and the cache
invalidation (line 861) sit inside the `if (!file.isFolder)` block
(lines 825–878), so a folder rename falls off the end of the function —
`undefined` is returned, the record keeps its old name and no cache
invalidation happens, although the new name is free. -/
theorem C6_renameFolder_bug :
    (renameFile exStateFolder "d1" "stuff").1 = none
    ∧ (renameFile exStateFolder "d1" "stuff").2.db = exStateFolder.db
    ∧ (renameFile exStateFolder "d1" "stuff").2.events
        = exStateFolder.events ++ [CacheEvent.deleteKey "file:d1"]
    ∧ findByNameAndPath exStateFolder.db "u1" "stuff" "/" .Drive = none := by
  refine ⟨by decide, by decide, by decide, by decide⟩

/-! ## C7 — duplicate naming -/

theorem foldl_max_filter (l : List Nat) :
    ∀ a : Nat, ((l.filter fun n => n > 0).foldl max a) = l.foldl max a := by
  induction l with
  | nil => intro a; rfl
  | cons x xs ih =>
    intro a
    by_cases hx : x > 0
    · simp [List.filter_cons, hx, ih]
    · have hx0 : x = 0 := by omega
      subst hx0
      simp [List.filter_cons, ih]

theorem foldl_max_zero (l : List Nat) (h : ∀ x ∈ l, x = 0) :
    ∀ a : Nat, l.foldl max a = a := by
  induction l with
  | nil => intro a; rfl
  | cons x xs ih =>
    intro a
    have hx : x = 0 := h x (List.mem_cons_self x xs)
    subst hx
    simp only [List.foldl_cons, Nat.max_zero]
    exact ih (fun y hy => h y (List.mem_cons_of_mem _ hy)) a

/-- `Math.max(...positives) + 1` with a `1` fallback equals
`1 + max-with-default-0` over the unfiltered list. -/
theorem copyNumber_eq (l : List Nat) :
    (if (l.filter fun n => n > 0).length > 0
      then (l.filter fun n => n > 0).foldl max 0 + 1 else 1)
    = 1 + l.foldl max 0 := by
  by_cases hlen : (l.filter fun n => n > 0).length > 0
  · rw [if_pos hlen, foldl_max_filter]
    omega
  · rw [if_neg hlen]
    have hall : ∀ x ∈ l, x = 0 := by
      intro x hxl
      by_contra hne
      have hmem : x ∈ l.filter fun n => n > 0 :=
        List.mem_filter.mpr ⟨hxl, by simpa using Nat.pos_of_ne_zero hne⟩
      have : 0 < (l.filter fun n => n > 0).length :=
        List.length_pos.mpr (fun hnil => by simp [hnil] at hmem)
      omega
    rw [foldl_max_zero l hall]

/-- Modelled from the spec: the duplicate's name is the base name with the
suffix `" (n)"` inserted before the extension, where `n` is `1` plus the
maximum suffix among existing records in the same path matching the base
name (`n = 1` when none exists). -/
def specDuplicateName (db : List FileRecord) (file : FileRecord) : String :=
  let split := dupHasExtSplit file
  let hasExt := split.1
  let baseName := split.2.1
  let extension := split.2.2
  let existingFiles := findByPath db file.ownerId file.objectPath file.location
  let suffixes := existingFiles.map fun f =>
    if hasExt then suffixNum baseName (jsSubstrBeforeLastDot f.objectName)
    else suffixNum baseName f.objectName
  baseName ++ " (" ++ toString (1 + suffixes.foldl max 0) ++ ")" ++ extension

/-- C7: the generated duplicate name always equals the spec formula
(`n = 1 + max existing matching suffix`, recomputed from current state), and
duplicating `report.pdf` three times in the same path yields
`report (1).pdf`, `report (2).pdf`, `report (3).pdf`. -/
theorem duplicateName_correct :
    (∀ (db : List FileRecord) (file : FileRecord),
        duplicateName db file = specDuplicateName db file)
    ∧ (duplicateFile exStateDup "f1").1.map (fun f => f.objectName)
        = some "report (1).pdf"
    ∧ (duplicateFile (duplicateFile exStateDup "f1").2 "f1").1.map
        (fun f => f.objectName) = some "report (2).pdf"
    ∧ (duplicateFile (duplicateFile (duplicateFile exStateDup "f1").2 "f1").2
        "f1").1.map (fun f => f.objectName) = some "report (3).pdf"
    ∧ (duplicateFile (duplicateFile (duplicateFile exStateDup "f1").2 "f1").2
        "f1").2.db.map (fun f => f.objectName)
        = ["", "", "report.pdf", "report (1).pdf", "report (2).pdf",
           "report (3).pdf"] := by
  refine ⟨?_, by decide, by decide, by decide, by decide⟩
  intro db file
  simp only [duplicateName, specDuplicateName]
  rw [copyNumber_eq]

/-! ## C8 — duplicate rollback on blob-copy failure -/

/-- State like `exStateDup` but with the source blob missing, so the
storage copy of a duplicate fails. -/
def exStateDupNoBlob : SysState :=
  { blobs := [], db := [exRootDrive, exRootBin, exReportPdf],
    users := [exUser], nextId := 0, events := [] }

/-- C8: when the blob copy fails (source object missing) after
`duplicateFile` has inserted the new metadata record, the record is deleted
again — the metadata store ends up unchanged (the freshly generated id does
not occur in the pre-state). -/
theorem duplicateFile_rollback (s : SysState) (fid : String)
    (file : FileRecord)
    (hfind : findById s.db fid = some file)
    (hnf : file.isFolder = false)
    (hsrc : (s.blobs.contains (slashKey
        (getUserStorageBasePath s.users file.ownerId)
        file.location file.objectPath file.objectName)) = false)
    (hfresh : ∀ g ∈ s.db, ¬(g.id = mkId s.nextId)) :
    (duplicateFile s fid).2.db = s.db := by
  simp only [duplicateFile, pushEvent, createFile]
  rw [hfind]
  simp only [hnf, shDuplicateFile, Bool.not_false, if_true]
  rw [hsrc]
  simp only [Bool.false_eq_true, if_false, updateUserStorageUsage]
  show (deleteFileRec (s.db ++ [_]) (mkId s.nextId)) = s.db
  unfold deleteFileRec
  rw [List.filter_append]
  have h1 : s.db.filter (fun f => !(f.id == mkId s.nextId)) = s.db := by
    rw [List.filter_eq_self]
    intro g hg
    simpa using hfresh g hg
  have h2 : List.filter (fun f => !(f.id == mkId s.nextId))
      [({ id := mkId s.nextId, ownerId := file.ownerId,
          objectName := duplicateName s.db file,
          objectPath := file.objectPath, mimeType := file.mimeType,
          size := file.size, isFolder := false, isDeleted := false,
          location := file.location } : FileRecord)] = [] := by
    simp
  rw [h1, h2, List.append_nil]

theorem duplicateFile_rollback_witness :
    (duplicateFile exStateDupNoBlob "f1").2.db = exStateDupNoBlob.db :=
  duplicateFile_rollback exStateDupNoBlob "f1" exReportPdf
    (by decide) (by decide) (by decide) (by decide)

/-! ## C10 — storage base path fallback -/

/-- C10: when the user lookup finds no user, `getUserStorageBasePath`
returns `"Local Users/{userId}/"` regardless of the user's actual auth
provider, and every blob key derived from that base path falls under the
`Local Users/{userId}/` prefix. -/
theorem getUserStorageBasePath_fallback (users : List User) (userId : String)
    (h : userFindById users userId = none) :
    getUserStorageBasePath users userId = "Local Users/" ++ userId ++ "/"
    ∧ ∀ (loc : FileLocation) (p n : String), ∃ rest : String,
        resolveKey (getUserStorageBasePath users userId) loc p n
          = "Local Users/" ++ userId ++ "/" ++ rest := by
  have hbase : getUserStorageBasePath users userId
      = "Local Users/" ++ userId ++ "/" := by
    unfold getUserStorageBasePath
    rw [h]
  refine ⟨hbase, ?_⟩
  intro loc p n
  refine ⟨loc.str ++ ("/" ++ (stripLead p ++ n)), ?_⟩
  rw [hbase, resolveKey_eq]

theorem getUserStorageBasePath_fallback_witness :
    getUserStorageBasePath [exGoogleUser] "u1" = "Local Users/" ++ "u1" ++ "/"
    ∧ ∀ (loc : FileLocation) (p n : String), ∃ rest : String,
        resolveKey (getUserStorageBasePath [exGoogleUser] "u1") loc p n
          = "Local Users/" ++ "u1" ++ "/" ++ rest :=
  getUserStorageBasePath_fallback [exGoogleUser] "u1" (by decide)

/-! ## C9 — empty bin -/

theorem emptyBinStep_db (base : String) (st : SysState) (f : FileRecord) :
    (emptyBinStep base st f).db = st.db := by
  unfold emptyBinStep
  split <;> rfl

theorem emptyBinStep_users (base : String) (st : SysState) (f : FileRecord) :
    (emptyBinStep base st f).users = st.users := by
  unfold emptyBinStep
  split <;> rfl

theorem emptyBinStep_events (base : String) (st : SysState) (f : FileRecord) :
    (emptyBinStep base st f).events = st.events := by
  unfold emptyBinStep
  split <;> rfl

theorem emptyBinFold_db (base : String) :
    ∀ (files : List FileRecord) (st : SysState),
      (List.foldl (emptyBinStep base) st files).db = st.db := by
  intro files
  induction files with
  | nil => intro st; rfl
  | cons f fs ih =>
    intro st
    rw [List.foldl_cons, ih, emptyBinStep_db]

theorem emptyBinFold_users (base : String) :
    ∀ (files : List FileRecord) (st : SysState),
      (List.foldl (emptyBinStep base) st files).users = st.users := by
  intro files
  induction files with
  | nil => intro st; rfl
  | cons f fs ih =>
    intro st
    rw [List.foldl_cons, ih, emptyBinStep_users]

theorem emptyBinFold_events (base : String) :
    ∀ (files : List FileRecord) (st : SysState),
      (List.foldl (emptyBinStep base) st files).events = st.events := by
  intro files
  induction files with
  | nil => intro st; rfl
  | cons f fs ih =>
    intro st
    rw [List.foldl_cons, ih, emptyBinStep_events]

/-- A blob key that is not among the keys targeted by the loop survives the
whole blob-deletion loop. -/
theorem emptyBinFold_mem (base : String) :
    ∀ (files : List FileRecord) (st : SysState) (k : String),
      k ∈ st.blobs →
      (∀ f ∈ files, f.isFolder = false →
        ¬(k = emptyBinKey base f.objectPath f.objectName)) →
      k ∈ (List.foldl (emptyBinStep base) st files).blobs := by
  intro files
  induction files with
  | nil => intro st k hk _; exact hk
  | cons f fs ih =>
    intro st k hk hav
    rw [List.foldl_cons]
    refine ih _ k ?_ (fun g hg => hav g (List.mem_cons_of_mem _ hg))
    unfold emptyBinStep
    split
    · next hnf =>
      have hne : ¬(k = emptyBinKey base f.objectPath f.objectName) :=
        hav f (List.mem_cons_self f fs) (by simpa using hnf)
      unfold shDeleteFile
      split
      · exact (List.mem_erase_of_ne hne).mpr hk
      · exact hk
    · exact hk

/-- C9 (counterexample). With `deep.txt` sitting in Bin at the nested path
`/sub/`, `emptyBin` removes its metadata record but never deletes its blob:
the enumeration `findByPath(userId, '/', 'Bin')` only reaches Bin records at
the root path, so the operation does not enumerate *all* Bin records. -/
theorem C9_emptyBin_counterexample :
    exNestedBin ∈ exStateBin.db
    ∧ exNestedBin.location = FileLocation.Bin
    ∧ (emptyBin exStateBin "u1").db = [exRootDrive, exRootBin]
    ∧ "Local Users/u1/Bin/sub/deep.txt" ∈ (emptyBin exStateBin "u1").blobs
    ∧ ¬("Local Users/u1/Bin/a.txt" ∈ (emptyBin exStateBin "u1").blobs) := by
  refine ⟨by decide, by decide, by decide, by decide, by decide⟩

/-- C9 (amended): `emptyBin` best-effort deletes the blobs of the owner's
Bin records **at the root path only** (blob keys not targeted by that
enumeration survive), removes every Bin metadata record of the owner except
the root Bin marker while leaving all other records untouched, invalidates
the owner's bin cache and recomputes the persisted storage usage from the
resulting table. -/
theorem emptyBin_spec (s : SysState) (uid : String) :
    (∀ f : FileRecord, f ∈ (emptyBin s uid).db ↔
        (f ∈ s.db ∧ ¬(f.ownerId = uid ∧ f.location = FileLocation.Bin
          ∧ ¬(f.id = rootBinId s.db uid))))
    ∧ (∀ k : String, k ∈ s.blobs →
        (∀ f ∈ findByPath s.db uid "/" FileLocation.Bin, f.isFolder = false →
          ¬(k = emptyBinKey (getUserStorageBasePath s.users uid)
              f.objectPath f.objectName)) →
        k ∈ (emptyBin s uid).blobs)
    ∧ CacheEvent.invalidateOwner uid "bin" ∈ (emptyBin s uid).events
    ∧ (∀ u ∈ (emptyBin s uid).users, u.id = uid →
        u.storageUsed = calculateStorageUsed (emptyBin s uid).db uid) := by
  refine ⟨?_, ?_, ?_, ?_⟩
  · intro f
    simp only [emptyBin, pushEvent, updateUserStorageUsage, updateStorageUsed,
      emptyBinFold_db]
    unfold deleteAllFiles
    rw [List.mem_filter]
    simp [rootBinId, and_assoc]
    intro _
    tauto
  · intro k hk hav
    simp only [emptyBin, pushEvent, updateUserStorageUsage, updateStorageUsed,
      emptyBinFold_db]
    exact emptyBinFold_mem _ _ _ k hk hav
  · simp only [emptyBin, pushEvent, updateUserStorageUsage, updateStorageUsed,
      emptyBinFold_events]
    simp
  · intro u hu huid
    simp only [emptyBin, pushEvent, updateUserStorageUsage, updateStorageUsed,
      emptyBinFold_db, emptyBinFold_users] at hu ⊢
    rcases List.mem_map.mp hu with ⟨orig, horig, heq⟩
    by_cases hid : orig.id = uid
    · rw [← heq]
      simp [hid]
    · exfalso
      rw [← heq] at huid
      simp [hid] at huid

theorem emptyBin_spec_witness :
    "Local Users/u1/Bin/sub/deep.txt" ∈ (emptyBin exStateBin "u1").blobs
    ∧ CacheEvent.invalidateOwner "u1" "bin" ∈ (emptyBin exStateBin "u1").events :=
  ⟨(emptyBin_spec exStateBin "u1").2.1 "Local Users/u1/Bin/sub/deep.txt"
      (by decide) (by decide),
   (emptyBin_spec exStateBin "u1").2.2.1⟩

end Cloudy
